import Mathlib

/-!
A verification development for the tier-sync reconciliation engine
(`src/index.js`, `src/unnamed/part_000`, `src/unnamed/part_001`).

The JavaScript source is shallowly embedded: pure helpers become Lean
functions, the stateful reconciliation step becomes an explicit function
from an input world (member roles, guild role table, cache content,
outcomes of the two directory calls) to a result trace (which batch calls
were issued, the cache entry afterwards, the log lines emitted).
-/

/- ====== Managed-Attribute Catalog ======
   `TIER_ROLE_IDS` / `ALL_TIER_IDS` from src/index.js lines 44-50
   (identical tables in part_000 lines 24-30 and part_001 lines 24-30). -/

def TIER_ROLE_IDS (n : Int) : Option String :=
  if n = 1 then some "1409930511744368700"
  else if n = 2 then some "1409930635929456640"
  else if n = 3 then some "1409930709816184882"
  else if n = 4 then some "1409930791844315186"
  else none

def ALL_TIER_IDS : Finset String :=
  {"1409930511744368700", "1409930635929456640",
   "1409930709816184882", "1409930791844315186"}

/- ====== JS `Number.parseInt(s, 10)` prefix semantics ======
   skip leading whitespace, optional sign, then the maximal run of
   decimal digits; NaN (here `none`) when no digit is found. -/

def digitVal (c : Char) : Option Nat :=
  if c.toNat ≥ 48 ∧ c.toNat ≤ 57 then some (c.toNat - 48) else none

def parseIntGo : Nat → List Char → Nat
  | acc, [] => acc
  | acc, c :: cs =>
    match digitVal c with
    | some d => parseIntGo (acc * 10 + d) cs
    | none => acc

def parseIntStart : List Char → Option Nat
  | [] => none
  | c :: cs =>
    match digitVal c with
    | some d => some (parseIntGo d cs)
    | none => none

def parseIntPrefixL (cs0 : List Char) : Option Int :=
  let cs := cs0.dropWhile (fun c => c.isWhitespace)
  match cs with
  | '-' :: rest => (parseIntStart rest).map (fun n => -(n : Int))
  | '+' :: rest => (parseIntStart rest).map (fun n => (n : Int))
  | _ => (parseIntStart cs).map (fun n => (n : Int))

def parseIntPrefix (s : String) : Option Int :=
  parseIntPrefixL s.toList

/-- JS `String.prototype.trim`: strip whitespace from both ends. -/
def jsTrim (cs : List Char) : List Char :=
  ((cs.dropWhile (fun c => c.isWhitespace)).reverse.dropWhile
    (fun c => c.isWhitespace)).reverse

/- ====== Tier parsers ======
   `parseTier` embeds src/index.js lines 60-66: trim, uppercase, strip a
   leading "T", `Number.parseInt(s, 10)`, accept 1..4.  A JS `null`/
   `undefined` argument is `none` (line 61 returns null for those).
   `isValidTier` embeds part_000 lines 46-49 (same in part_001 lines
   38-41): `Number.parseInt(val, 10)` directly, accept 1..4; a null
   argument coerces to a non-numeric string, hence NaN, hence `none`. -/

def parseTier (val : Option String) : Option Int :=
  match val with
  | none => none
  | some v =>
    let s := (jsTrim v.toList).map Char.toUpper
    let s := match s with
      | 'T' :: rest => rest
      | _ => s
    match parseIntPrefixL s with
    | none => none
    | some n => if n = 1 ∨ n = 2 ∨ n = 3 ∨ n = 4 then some n else none

def isValidTier (val : Option String) : Option Int :=
  match val with
  | none => none
  | some v =>
    match parseIntPrefix v with
    | none => none
    | some n => if n = 1 ∨ n = 2 ∨ n = 3 ∨ n = 4 then some n else none

/- ====== Desired tier role ======
   `desiredRoleId` embeds the expression
   `tierNumber ? TIER_ROLE_IDS[tierNumber] : null`
   (src/index.js line 86, part_000 line 105, part_001 line 59); the JS
   falsy test on the number also rejects 0.  `desiredSet` is the set form
   of the at-most-one desired role, used to state the spec's diff
   equations. -/

def desiredRoleId (tierNumber : Option Int) : Option String :=
  match tierNumber with
  | none => none
  | some n => if n = 0 then none else TIER_ROLE_IDS n

def desiredSet (tierNumber : Option Int) : Finset String :=
  match desiredRoleId tierNumber with
  | none => ∅
  | some d => {d}

/- ====== Differ ======
   `reconcileTierDiff` embeds the diff computed inside `reconcileTier`,
   src/index.js lines 86-104 (identical in part_001 lines 59-75):
   `currentTierRoles` filters the member's full role collection by the
   catalog, `toRemove` keeps every current tier role other than the
   desired one, `toAdd` holds the desired role when the member lacks it. -/

structure DiffResult where
  toRemove : Finset String
  toAdd : Finset String
deriving DecidableEq

def reconcileTierDiff (tierNumber : Option Int) (rolesColl : Finset String) :
    DiffResult :=
  let d := desiredRoleId tierNumber
  let currentTierRoles := rolesColl ∩ ALL_TIER_IDS
  let toRemove := currentTierRoles.filter (fun id => d ≠ some id)
  let toAdd : Finset String := match d with
    | some x => if x ∈ rolesColl then ∅ else {x}
    | none => ∅
  ⟨toRemove, toAdd⟩

/- ====== Role editability ======
   `canEditRoleCached` embeds part_000 lines 53-63: the guild role table
   lookup, the `managed` flag, and
   `me.roles.highest.comparePositionTo(role) > 0` as a position
   comparison of the acting identity's highest role against the target.
   The `editableRoleCache` map only memoizes this pure computation, so it
   is dropped from the embedding. -/

structure Role where
  id : String
  managed : Bool
  position : Int
deriving DecidableEq

def canEditRoleCached (guildRoles : List Role) (mePos : Int) (roleId : String) :
    Bool :=
  match guildRoles.find? (fun r => r.id = roleId) with
  | none => false
  | some role => if role.managed then false else decide (mePos > role.position)

/- ====== part_000 `reconcileTier` ======
   Full embedding of part_000 lines 85-146.  Inputs that the JS function
   reads from ambient state become fields of `World`:
   - `hasManageRoles`: the `me.permissions.has(ManageRoles)` test;
   - `cache`: `lastAppliedTier.get(discordId)` — `none` means no entry
     (a JS `undefined`, which compares unequal to both null and numbers),
     `some v` an entry holding number-or-null `v`;
   - `memberRoles`: `none` when the member fetch fails, otherwise the
     member's full role-id collection;
   - `guildRoles`, `mePos`: the guild role table and the bot's highest
     role position, for `canEditRoleCached`;
   - `removeOk` / `addOk`: whether `member.roles.remove` /
     `member.roles.add` would succeed when awaited (a `false` models the
     awaited promise rejecting, which jumps to the catch block).
   The result records which batch calls were issued (`removeCalled` /
   `addCalled`), the computed diff sets before the calls (`diffRemove` /
   `diffAdd`), the cache entry afterwards, and the log lines emitted. -/

structure World where
  hasManageRoles : Bool
  cache : Option (Option Int)
  memberRoles : Option (Finset String)
  guildRoles : List Role
  mePos : Int
  removeOk : Bool
  addOk : Bool

structure RResult where
  removeCalled : Option (Finset String)
  addCalled : Option (Finset String)
  diffRemove : Finset String
  diffAdd : Finset String
  cacheAfter : Option (Option Int)
  logs : List String
deriving DecidableEq

def runToRemove (w : World) (tierNumber : Option Int) : Finset String :=
  match w.memberRoles with
  | none => ∅
  | some rolesColl =>
    (rolesColl ∩ ALL_TIER_IDS).filter (fun id =>
      desiredRoleId tierNumber ≠ some id ∧
      canEditRoleCached w.guildRoles w.mePos id = true)

def runToAdd (w : World) (tierNumber : Option Int) : Finset String :=
  match w.memberRoles with
  | none => ∅
  | some rolesColl =>
    match desiredRoleId tierNumber with
    | none => ∅
    | some x =>
      if x ∉ rolesColl ∧ canEditRoleCached w.guildRoles w.mePos x = true
      then {x} else ∅

def noDiffNeeded (d : Option String) (currentTierRoles : Finset String) :
    Bool :=
  match d with
  | some x => decide (currentTierRoles.card = 1 ∧ x ∈ currentTierRoles)
  | none => false

def reconcileTier (w : World) (discordId : String) (tierNumber : Option Int) :
    RResult :=
  if ¬ w.hasManageRoles then
    ⟨none, none, ∅, ∅, w.cache, ["Bot missing Manage Roles permission"]⟩
  else if w.cache = some tierNumber then
    ⟨none, none, ∅, ∅, w.cache, []⟩
  else match w.memberRoles with
  | none => ⟨none, none, ∅, ∅, w.cache, []⟩
  | some rolesColl =>
    let currentTierRoles := rolesColl ∩ ALL_TIER_IDS
    let d := desiredRoleId tierNumber
    if d = none ∧ currentTierRoles = ∅ then
      ⟨none, none, ∅, ∅, some none, []⟩
    else if noDiffNeeded d currentTierRoles then
      ⟨none, none, ∅, ∅, some tierNumber, []⟩
    else
      let toRemove := runToRemove w tierNumber
      let toAdd := runToAdd w tierNumber
      if toRemove = ∅ ∧ toAdd = ∅ then
        ⟨none, none, toRemove, toAdd, some tierNumber, []⟩
      else if toRemove ≠ ∅ ∧ ¬ w.removeOk then
        ⟨some toRemove, none, toRemove, toAdd, w.cache,
         ["reconcileTier(" ++ discordId ++ ")"]⟩
      else if toAdd ≠ ∅ ∧ ¬ w.addOk then
        ⟨if toRemove = ∅ then none else some toRemove, some toAdd,
         toRemove, toAdd, w.cache,
         ["reconcileTier(" ++ discordId ++ ")"]⟩
      else
        ⟨if toRemove = ∅ then none else some toRemove,
         if toAdd = ∅ then none else some toAdd,
         toRemove, toAdd, some tierNumber, []⟩

/- ====== Record rows ======
   The `players` row shape used by the engine: `id`, `discord_id`,
   `tier`, and the label fields read by the audit (`nickname`, `role`,
   `current_rank`).  Fields hold `none` for SQL null / absent. -/

structure Row where
  id : Option Nat
  discord_id : Option String
  tier : Option String
  nickname : Option String
  memberRole : Option String
  current_rank : Option String
deriving DecidableEq

/-- JS truthiness of a nullable string: null/undefined and "" are falsy. -/
def jsStrTruthy (v : Option String) : Bool :=
  match v with
  | none => false
  | some s => decide (s ≠ "")

/-- JS `a || b` for a nullable string `a` and fallback `b`. -/
def jsOr (a : Option String) (b : String) : String :=
  match a with
  | none => b
  | some s => if s = "" then b else s

/- ====== `applyFromRow` ======
   index.js lines 117-127: with a usable `discord_id`, an unparseable
   tier logs a warning and returns without reconciling ("leaving roles
   as-is"); otherwise `reconcileTier(row.discord_id, tierNum)` runs.
   `reconcileCalledWith = some t` records that call with tier `t`. -/

structure ApplyFromRowOut where
  warned : Bool
  reconcileCalledWith : Option (Option Int)
deriving DecidableEq

def applyFromRow (row : Row) : ApplyFromRowOut :=
  if ¬ jsStrTruthy row.discord_id then ⟨false, none⟩
  else match parseTier row.tier with
    | none => ⟨true, none⟩
    | some n => ⟨false, some (some n)⟩

/- part_001 lines 89-93: always calls `reconcileTier` with
   `isValidTier(row.tier)`, null tier included, and logs nothing. -/

def applyFromRow_v001 (row : Row) : Option (Option Int) :=
  if ¬ jsStrTruthy row.discord_id then none
  else some (isValidTier row.tier)

/- ====== Audit Reporter ======
   index.js lines 170-180 and 235-242.  `labelForRow` is the JS
   `row.nickname || row.role || row.current_rank || `id:...``;
   `signatureFor` stringifies `r.id ?? labelForRow(r)`, sorts, joins with
   ",".  `runMissingAuditOnce` takes the remembered `lastMissingKey` and
   the fetched rows, returns whether a report is posted and the new key. -/

def labelForRow (r : Row) : String :=
  jsOr r.nickname (jsOr r.memberRole (jsOr r.current_rank
    ("id:" ++ (match r.id with | some n => toString n | none => "undefined"))))

def insertSorted (s : String) : List String → List String
  | [] => [s]
  | t :: ts => if s ≤ t then s :: t :: ts else t :: insertSorted s ts

def sortStrings : List String → List String
  | [] => []
  | s :: ss => insertSorted s (sortStrings ss)

def joinComma : List String → String
  | [] => ""
  | [s] => s
  | s :: ss => s ++ "," ++ joinComma ss

def signatureFor (rows : List Row) : String :=
  joinComma (sortStrings (rows.map (fun r =>
    match r.id with
    | some n => toString n
    | none => labelForRow r)))

def runMissingAuditOnce (lastMissingKey : String) (rows : List Row) :
    Bool × String :=
  let sig := signatureFor rows
  if sig ≠ lastMissingKey then (true, sig) else (false, lastMissingKey)

/- ====== Per-Entity Scheduler (debounce) ======
   part_000 lines 70-82 and 148-162, as a discrete-time event semantics.
   `Sched.pending` models the `debounceTimers` map together with the
   snapshot each timer closure captured: at most one entry per key, each
   carrying its fire time (creation time + DEBOUNCE_MS) and the tier from
   the call that armed it.  `scheduleCall` is one `scheduleApplyFromRow`
   body: `clearTimeout` of the key's pending timer, then a fresh
   `setTimeout` — i.e. the key's entry is replaced.  `fireDue` fires
   every timer due at or before the current instant, appending to
   `fired` the tasks handed to `enqueueForMember` (fire time, key, tier).
   `runDebounce` processes a time-ordered event list, firing due timers
   before each event and flushing the rest at the end. -/

def DEBOUNCE_MS : Nat := 500

structure Sched where
  pending : List (String × Nat × Option Int)
  fired : List (Nat × String × Option Int)
deriving DecidableEq

def emptySched : Sched := ⟨[], []⟩

def scheduleCall (now : Nat) (k : String) (tier : Option Int) (s : Sched) :
    Sched :=
  { s with pending :=
      s.pending.filter (fun p => p.1 ≠ k) ++ [(k, now + DEBOUNCE_MS, tier)] }

def fireDue (t : Nat) (s : Sched) : Sched :=
  { pending := s.pending.filter (fun p => ¬ p.2.1 ≤ t),
    fired := s.fired ++
      (s.pending.filter (fun p => p.2.1 ≤ t)).map
        (fun p => (p.2.1, p.1, p.2.2)) }

def flushSched (s : Sched) : List (Nat × String × Option Int) :=
  s.fired ++ s.pending.map (fun p => (p.2.1, p.1, p.2.2))

/-- part_000 lines 149-162: skip rows without a usable `discord_id`,
otherwise debounce-schedule `reconcileTier(discordId, isValidTier(tier))`. -/
def scheduleApplyFromRow (now : Nat) (row : Row) (s : Sched) : Sched :=
  match row.discord_id with
  | none => s
  | some k => if k = "" then s else scheduleCall now k (isValidTier row.tier) s

def runDebounceFrom (s : Sched) :
    List (Nat × Row) → List (Nat × String × Option Int)
  | [] => flushSched s
  | (t, row) :: rest => runDebounceFrom (scheduleApplyFromRow t row (fireDue t s)) rest

def runDebounce (events : List (Nat × Row)) :
    List (Nat × String × Option Int) :=
  runDebounceFrom emptySched events


/- ====== Desired state of a row, and concrete instances ======
   `desiredRoleSet` is the Desired-State Computer applied to one row:
   the set form of the tier role derived by `applyFromRow`
   (index.js lines 117-127) from `parseTier(row.tier)`.  The concrete
   worlds and rows below instantiate the theorems; `gRolesAll` is a guild
   table where the bot outranks all four unmanaged tier roles,
   `gRolesT3managed` the same except the T3 role is externally managed. -/

def desiredRoleSet (row : Row) : Finset String :=
  desiredSet (parseTier row.tier)

def t1id : String := "1409930511744368700"

def t2id : String := "1409930635929456640"

def t3id : String := "1409930709816184882"

def t4id : String := "1409930791844315186"

def gRolesAll : List Role :=
  [⟨t1id, false, 1⟩, ⟨t2id, false, 1⟩, ⟨t3id, false, 1⟩, ⟨t4id, false, 1⟩]

def gRolesT3managed : List Role :=
  [⟨t1id, false, 1⟩, ⟨t2id, false, 1⟩, ⟨t3id, true, 1⟩, ⟨t4id, false, 1⟩]

def wC3 : World := ⟨true, none, some {t1id}, gRolesAll, 2, false, true⟩

def wC4 : World := ⟨true, none, some {t1id, t3id}, gRolesT3managed, 2, true, true⟩

def wC9 : World := ⟨true, none, some {t1id}, gRolesAll, 2, true, false⟩

def rowA : Row := ⟨some 1, some "u1", some "T2", none, none, none⟩

def rowBad : Row := ⟨some 1, some "u1", some "??", none, none, none⟩

def rowE1 : Row := ⟨some 1, some "u1", some "T1", none, none, none⟩

def rowE2 : Row := ⟨some 1, some "u1", some "2", none, none, none⟩

def rowAudit : Row := ⟨some 7, none, none, some "nick", none, none⟩

/- ====== Helper lemmas ====== -/

lemma TIER_ROLE_IDS_mem {n : Int} {d : String}
    (h : TIER_ROLE_IDS n = some d) : d ∈ ALL_TIER_IDS := by
  unfold TIER_ROLE_IDS at h
  split_ifs at h <;> simp_all [ALL_TIER_IDS]

lemma desiredRoleId_mem {t : Option Int} {d : String}
    (h : desiredRoleId t = some d) : d ∈ ALL_TIER_IDS := by
  cases t with
  | none => simp [desiredRoleId] at h
  | some n =>
    simp only [desiredRoleId] at h
    split_ifs at h
    exact TIER_ROLE_IDS_mem h

lemma reconcileTierDiff_toRemove (t : Option Int) (roles : Finset String) :
    (reconcileTierDiff t roles).toRemove =
      (roles ∩ ALL_TIER_IDS).filter (fun id => desiredRoleId t ≠ some id) :=
  rfl

lemma reconcileTierDiff_toAdd (t : Option Int) (roles : Finset String) :
    (reconcileTierDiff t roles).toAdd =
      match desiredRoleId t with
      | some x => if x ∈ roles then ∅ else {x}
      | none => ∅ :=
  rfl

lemma runToRemove_subset (w : World) (t : Option Int) :
    runToRemove w t ⊆ ALL_TIER_IDS := by
  obtain ⟨perm, cache, mroles, groles, mpos, rok, aok⟩ := w
  unfold runToRemove
  cases mroles with
  | none => simp
  | some rolesColl =>
    exact (Finset.filter_subset _ _).trans Finset.inter_subset_right

lemma runToAdd_subset (w : World) (t : Option Int) :
    runToAdd w t ⊆ ALL_TIER_IDS := by
  obtain ⟨perm, cache, mroles, groles, mpos, rok, aok⟩ := w
  cases mroles with
  | none => simp [runToAdd]
  | some rolesColl =>
    cases h : desiredRoleId t with
    | none => simp [runToAdd, h]
    | some x =>
      simp only [runToAdd, h]
      split_ifs
      · simpa using desiredRoleId_mem h
      · simp

lemma reconcileTier_diff_cases (w : World) (i : String) (t : Option Int) :
    ((reconcileTier w i t).diffRemove = ∅ ∨
      (reconcileTier w i t).diffRemove = runToRemove w t) ∧
    ((reconcileTier w i t).diffAdd = ∅ ∨
      (reconcileTier w i t).diffAdd = runToAdd w t) := by
  obtain ⟨perm, cache, mroles, groles, mpos, rok, aok⟩ := w
  unfold reconcileTier
  repeat' first
    | exact ⟨Or.inl rfl, Or.inl rfl⟩
    | exact ⟨Or.inr rfl, Or.inr rfl⟩
    | split
    | dsimp only

/-- C1: for every record tier value and every observed role set of the
entity, the computed `toRemove` and `toAdd` sets contain only role ids of
the Managed-Attribute Catalog (`TIER_ROLE_IDS`) — in the index.js diff
and in the part_000 reconciler alike — so roles the engine does not
manage are preserved untouched regardless of record content. -/
theorem C1_unmanaged_tags_preserved :
    ∀ (tierNumber : Option Int) (rolesColl : Finset String) (w : World)
      (discordId : String),
      (reconcileTierDiff tierNumber rolesColl).toRemove ⊆ ALL_TIER_IDS ∧
      (reconcileTierDiff tierNumber rolesColl).toAdd ⊆ ALL_TIER_IDS ∧
      (reconcileTier w discordId tierNumber).diffRemove ⊆ ALL_TIER_IDS ∧
      (reconcileTier w discordId tierNumber).diffAdd ⊆ ALL_TIER_IDS := by
  intro tierNumber rolesColl w discordId
  refine ⟨?_, ?_, ?_, ?_⟩
  · rw [reconcileTierDiff_toRemove]
    exact (Finset.filter_subset _ _).trans Finset.inter_subset_right
  · rw [reconcileTierDiff_toAdd]
    cases h : desiredRoleId tierNumber with
    | none => simp
    | some x =>
      dsimp only
      split_ifs
      · simp
      · simpa using desiredRoleId_mem h
  · rcases (reconcileTier_diff_cases w discordId tierNumber).1 with h | h <;>
      rw [h]
    · simp
    · exact runToRemove_subset w tierNumber
  · rcases (reconcileTier_diff_cases w discordId tierNumber).2 with h | h <;>
      rw [h]
    · simp
    · exact runToAdd_subset w tierNumber

/-- C2: for every desired tier and every observed full role set, the diff
of `reconcileTier` (index.js lines 86-104) satisfies
`toRemove = observedManaged \ desired` and
`toAdd = desired \ observedManaged` with
`observedManaged = observedFull ∩ ALL_TIER_IDS`; consequently
`toAdd ∩ observedManaged = ∅`, `toRemove ⊆ observedManaged` and
`toRemove ∩ desired = ∅`. -/
theorem C2_diff_equations :
    ∀ (t : Option Int) (observedFull : Finset String),
      (reconcileTierDiff t observedFull).toRemove =
        (observedFull ∩ ALL_TIER_IDS) \ desiredSet t ∧
      (reconcileTierDiff t observedFull).toAdd =
        desiredSet t \ (observedFull ∩ ALL_TIER_IDS) ∧
      (reconcileTierDiff t observedFull).toAdd ∩
        (observedFull ∩ ALL_TIER_IDS) = ∅ ∧
      (reconcileTierDiff t observedFull).toRemove ⊆
        observedFull ∩ ALL_TIER_IDS ∧
      (reconcileTierDiff t observedFull).toRemove ∩ desiredSet t = ∅ := by
  intro t observedFull
  have hrem : (reconcileTierDiff t observedFull).toRemove =
      (observedFull ∩ ALL_TIER_IDS) \ desiredSet t := by
    rw [reconcileTierDiff_toRemove]
    unfold desiredSet
    cases h : desiredRoleId t with
    | none => simp
    | some x =>
      ext a
      simp [Finset.mem_sdiff, Finset.mem_filter]
      intro _ _
      constructor
      · intro hne heq
        exact hne (by rw [heq])
      · intro hne heq
        exact hne heq.symm
  have hadd : (reconcileTierDiff t observedFull).toAdd =
      desiredSet t \ (observedFull ∩ ALL_TIER_IDS) := by
    rw [reconcileTierDiff_toAdd]
    unfold desiredSet
    cases h : desiredRoleId t with
    | none => simp
    | some x =>
      have hx : x ∈ ALL_TIER_IDS := desiredRoleId_mem h
      dsimp only
      split_ifs with hmem
      · rw [eq_comm, Finset.sdiff_eq_empty_iff_subset]
        intro a ha
        simp at ha
        subst ha
        exact Finset.mem_inter.mpr ⟨hmem, hx⟩
      · ext a
        simp only [Finset.mem_singleton, Finset.mem_sdiff, Finset.mem_inter]
        constructor
        · intro ha
          subst ha
          exact ⟨rfl, fun hc => hmem hc.1⟩
        · intro ha
          exact ha.1
  refine ⟨hrem, hadd, ?_, ?_, ?_⟩
  · rw [hadd]
    exact Finset.sdiff_inter_self _ _
  · rw [hrem]
    exact Finset.sdiff_subset
  · rw [hrem]
    exact Finset.sdiff_inter_self _ _

lemma noDiff_runToRemove_empty (w : World) (t : Option Int)
    (roles : Finset String) (hm : w.memberRoles = some roles)
    (h : noDiffNeeded (desiredRoleId t) (roles ∩ ALL_TIER_IDS) = true) :
    runToRemove w t = ∅ := by
  obtain ⟨perm, cache, mroles, groles, mpos, rok, aok⟩ := w
  dsimp only at hm
  subst hm
  unfold noDiffNeeded at h
  cases hd : desiredRoleId t with
  | none => rw [hd] at h; simp at h
  | some x =>
    rw [hd] at h
    simp only [decide_eq_true_eq] at h
    obtain ⟨hcard, hmem⟩ := h
    obtain ⟨a, ha⟩ := Finset.card_eq_one.mp hcard
    rw [ha] at hmem
    simp only [Finset.mem_singleton] at hmem
    subst hmem
    unfold runToRemove
    dsimp only
    rw [ha]
    ext b
    simp only [Finset.mem_filter, Finset.mem_singleton, Finset.not_mem_empty,
      iff_false, hd]
    rintro ⟨rfl, hne, _⟩
    exact hne rfl

lemma noDiff_runToAdd_empty (w : World) (t : Option Int)
    (roles : Finset String) (hm : w.memberRoles = some roles)
    (h : noDiffNeeded (desiredRoleId t) (roles ∩ ALL_TIER_IDS) = true) :
    runToAdd w t = ∅ := by
  obtain ⟨perm, cache, mroles, groles, mpos, rok, aok⟩ := w
  dsimp only at hm
  subst hm
  unfold noDiffNeeded at h
  cases hd : desiredRoleId t with
  | none => rw [hd] at h; simp at h
  | some x =>
    rw [hd] at h
    simp only [decide_eq_true_eq] at h
    have hx : x ∈ roles := Finset.mem_inter.mp h.2 |>.1
    unfold runToAdd
    dsimp only
    rw [hd]
    dsimp only
    rw [if_neg]
    intro hc
    exact hc.1 hx

lemma reconcileTier_apply (w : World) (i : String) (t : Option Int)
    (roles : Finset String)
    (hperm : w.hasManageRoles = true)
    (hcache : w.cache ≠ some t)
    (hm : w.memberRoles = some roles)
    (hne : ¬ (runToRemove w t = ∅ ∧ runToAdd w t = ∅)) :
    reconcileTier w i t =
      if runToRemove w t ≠ ∅ ∧ ¬ w.removeOk then
        ⟨some (runToRemove w t), none, runToRemove w t, runToAdd w t,
         w.cache, ["reconcileTier(" ++ i ++ ")"]⟩
      else if runToAdd w t ≠ ∅ ∧ ¬ w.addOk then
        ⟨if runToRemove w t = ∅ then none else some (runToRemove w t),
         some (runToAdd w t), runToRemove w t, runToAdd w t,
         w.cache, ["reconcileTier(" ++ i ++ ")"]⟩
      else
        ⟨if runToRemove w t = ∅ then none else some (runToRemove w t),
         if runToAdd w t = ∅ then none else some (runToAdd w t),
         runToRemove w t, runToAdd w t, some t, []⟩ := by
  have hrem_noDiff := noDiff_runToRemove_empty w t roles hm
  have hadd_noDiff := noDiff_runToAdd_empty w t roles hm
  obtain ⟨perm, cache, mroles, groles, mpos, rok, aok⟩ := w
  dsimp only at hperm hcache hm hne hrem_noDiff hadd_noDiff ⊢
  subst hperm
  subst hm
  unfold reconcileTier
  rw [if_neg (by simp)]
  rw [if_neg hcache]
  try dsimp only
  by_cases h1 : desiredRoleId t = none ∧ roles ∩ ALL_TIER_IDS = ∅
  · exfalso
    apply hne
    constructor
    · unfold runToRemove
      try dsimp only
      rw [h1.2]
      simp
    · unfold runToAdd
      try dsimp only
      rw [h1.1]
  · rw [if_neg h1]
    by_cases h2 : noDiffNeeded (desiredRoleId t) (roles ∩ ALL_TIER_IDS) = true
    · exact absurd ⟨hrem_noDiff h2, hadd_noDiff h2⟩ hne
    · rw [if_neg h2]
      try dsimp only
      rw [if_neg hne]

lemma runToRemove_member_of_ne {w : World} {t : Option Int}
    (h : runToRemove w t ≠ ∅) : ∃ roles, w.memberRoles = some roles := by
  cases hm : w.memberRoles with
  | none =>
    exfalso
    apply h
    unfold runToRemove
    rw [hm]
  | some roles => exact ⟨roles, rfl⟩

lemma runToAdd_member_of_ne {w : World} {t : Option Int}
    (h : runToAdd w t ≠ ∅) : ∃ roles, w.memberRoles = some roles := by
  cases hm : w.memberRoles with
  | none =>
    exfalso
    apply h
    unfold runToAdd
    rw [hm]
  | some roles => exact ⟨roles, rfl⟩

/-- C3 counterexample: a concrete run of part_000 `reconcileTier` with a
non-empty `toRemove` ({T1}), a non-empty `toAdd` ({T2}), and a failing
removal call: the addition step is never attempted (`addCalled = none`),
because both awaits sit in one try/catch — refuting the claim that a
removal failure does not prevent the addition step. -/
theorem C3_counterexample :
    (reconcileTier wC3 "u1" (some 2)).diffRemove ≠ ∅ ∧
    (reconcileTier wC3 "u1" (some 2)).diffAdd ≠ ∅ ∧
    wC3.removeOk = false ∧
    (reconcileTier wC3 "u1" (some 2)).addCalled = none := by decide

/-- C3 amended: the removal and addition steps are NOT independent — they
share one try/catch (index.js lines 106-113, part_000 lines 138-145), so
whenever the computed `toRemove` is non-empty and the removal call fails,
the addition step is never attempted and the error is caught and logged. -/
theorem C3_remove_failure_aborts_add :
    ∀ (w : World) (i : String) (t : Option Int),
      w.hasManageRoles = true →
      w.cache ≠ some t →
      runToRemove w t ≠ ∅ →
      ¬ w.removeOk →
      (reconcileTier w i t).removeCalled = some (runToRemove w t) ∧
      (reconcileTier w i t).addCalled = none ∧
      (reconcileTier w i t).logs = ["reconcileTier(" ++ i ++ ")"] := by
  intro w i t hperm hcache hrem hrok
  obtain ⟨roles, hm⟩ := runToRemove_member_of_ne hrem
  rw [reconcileTier_apply w i t roles hperm hcache hm (fun hc => hrem hc.1)]
  rw [if_pos ⟨hrem, hrok⟩]
  exact ⟨rfl, rfl, rfl⟩

/-- C3 witness: the amended theorem instantiated at the concrete world
`wC3` (member holding T1, desired tier 2, removal call failing). -/
theorem C3_remove_failure_aborts_add_witness :
    wC3.hasManageRoles = true ∧ wC3.cache ≠ some (some 2) ∧
    runToRemove wC3 (some 2) ≠ ∅ ∧ ¬ wC3.removeOk ∧
    ((reconcileTier wC3 "u1" (some 2)).removeCalled =
        some (runToRemove wC3 (some 2)) ∧
      (reconcileTier wC3 "u1" (some 2)).addCalled = none ∧
      (reconcileTier wC3 "u1" (some 2)).logs =
        ["reconcileTier(" ++ "u1" ++ ")"]) :=
  ⟨by decide, by decide, by decide, by decide,
    C3_remove_failure_aborts_add wC3 "u1" (some 2)
      (by decide) (by decide) (by decide) (by decide)⟩

lemma reconcileTier_logs_ok (w : World) (i : String) (t : Option Int)
    (hperm : w.hasManageRoles = true)
    (hrok : w.removeOk = true) (haok : w.addOk = true) :
    (reconcileTier w i t).logs = [] := by
  obtain ⟨perm, cache, mroles, groles, mpos, rok, aok⟩ := w
  dsimp only at hperm hrok haok
  subst hperm
  subst hrok
  subst haok
  unfold reconcileTier
  rw [if_neg (by simp)]
  split
  · rfl
  cases mroles with
  | none => rfl
  | some roles =>
    try dsimp only
    split
    · rfl
    split
    · rfl
    try dsimp only
    split
    · rfl
    split
    · simp_all
    split
    · simp_all
    · rfl

/-- C4 counterexample: in the concrete world `wC4` the entity holds the
managed tier roles T1 and T3, tier 2 is desired, and the T3 role is
externally managed so the capability check `canEditRoleCached` fails for
it.  T3 is a stale managed tag (observed, managed, not desired), it is
dropped from `toRemove` — but NO log line is emitted (`logs = []`),
refuting the claim that a tag failing the check is dropped AND logged. -/
theorem C4_counterexample :
    t3id ∈ ({t1id, t3id} : Finset String) ∩ ALL_TIER_IDS ∧
    desiredRoleId (some 2) ≠ some t3id ∧
    canEditRoleCached wC4.guildRoles wC4.mePos t3id = false ∧
    t3id ∉ (reconcileTier wC4 "u1" (some 2)).diffRemove ∧
    (reconcileTier wC4 "u1" (some 2)).logs = [] := by decide

/-- C4 amended: part_000 checks `canEditRoleCached` per tag before
including it in `toRemove`/`toAdd`; a tag failing the check is dropped
SILENTLY (no log line is emitted for it), the remaining tags are still
applied, and the failed check is never fatal to the operation. -/
theorem C4_capability_drop_is_silent :
    ∀ (w : World) (i : String) (t : Option Int) (roles : Finset String),
      w.hasManageRoles = true →
      w.cache ≠ some t →
      w.memberRoles = some roles →
      w.removeOk = true →
      w.addOk = true →
      runToRemove w t = (roles ∩ ALL_TIER_IDS).filter (fun id =>
          desiredRoleId t ≠ some id ∧
          canEditRoleCached w.guildRoles w.mePos id = true) ∧
      (reconcileTier w i t).logs = [] ∧
      (runToRemove w t ≠ ∅ →
        (reconcileTier w i t).removeCalled = some (runToRemove w t)) ∧
      (runToAdd w t ≠ ∅ →
        (reconcileTier w i t).addCalled = some (runToAdd w t)) := by
  intro w i t roles hperm hcache hm hrok haok
  refine ⟨?_, reconcileTier_logs_ok w i t hperm hrok haok, ?_, ?_⟩
  · unfold runToRemove
    rw [hm]
  · intro hrem
    rw [reconcileTier_apply w i t roles hperm hcache hm (fun hc => hrem hc.1)]
    rw [if_neg (fun hc => hc.2 hrok)]
    rw [if_neg (fun hc => hc.2 haok)]
    rw [if_neg (fun hc => hrem hc)]
  · intro hadd
    rw [reconcileTier_apply w i t roles hperm hcache hm (fun hc => hadd hc.2)]
    rw [if_neg (fun hc => hc.2 hrok)]
    rw [if_neg (fun hc => hc.2 haok)]
    by_cases h0 : runToRemove w t = ∅
    · rw [if_pos h0]
      rw [if_neg hadd]
    · rw [if_neg h0]
      rw [if_neg hadd]

/-- C4 witness: the amended theorem instantiated at the concrete world
`wC4` (member holding T1 and T3, T3 externally managed, tier 2 desired). -/
theorem C4_capability_drop_is_silent_witness :
    (reconcileTier wC4 "u1" (some 2)).logs = [] ∧
    (reconcileTier wC4 "u1" (some 2)).removeCalled =
      some (runToRemove wC4 (some 2)) ∧
    (reconcileTier wC4 "u1" (some 2)).addCalled =
      some (runToAdd wC4 (some 2)) :=
  ⟨(C4_capability_drop_is_silent wC4 "u1" (some 2) {t1id, t3id}
      (by decide) (by decide) rfl rfl rfl).2.1,
   (C4_capability_drop_is_silent wC4 "u1" (some 2) {t1id, t3id}
      (by decide) (by decide) rfl rfl rfl).2.2.1 (by decide),
   (C4_capability_drop_is_silent wC4 "u1" (some 2) {t1id, t3id}
      (by decide) (by decide) rfl rfl rfl).2.2.2 (by decide)⟩

/-- C9 counterexample: in the concrete world `wC9` the removal step
completes (removeOk, `removeCalled = some {T1}`) and the addition step is
attempted but fails — a partial success in the claim's sense — yet the
Last-Applied Cache entry stays unset (`cacheAfter = none`), because
`lastAppliedTier.set` only runs after BOTH awaits succeed.  This refutes
the claim that the cache is updated on partial success. -/
theorem C9_counterexample :
    wC9.removeOk = true ∧
    (reconcileTier wC9 "u1" (some 2)).removeCalled = some {t1id} ∧
    (reconcileTier wC9 "u1" (some 2)).addCalled = some {t2id} ∧
    wC9.cache = none ∧
    (reconcileTier wC9 "u1" (some 2)).cacheAfter = none := by decide

/-- C9 amended: the Last-Applied Cache entry is written only on FULL
success of the apply (both batch calls succeed); on any failure — removal
failing, or removal succeeding and addition failing (partial success) —
and on member-fetch failure, the entry is left unchanged, so the next
change for the entity is not skipped. -/
theorem C9_cache_updated_only_on_full_success :
    ∀ (w : World) (i : String) (t : Option Int),
      w.hasManageRoles = true →
      w.cache ≠ some t →
      ((runToRemove w t ≠ ∅ ∧ ¬ w.removeOk) →
        (reconcileTier w i t).cacheAfter = w.cache) ∧
      ((w.removeOk = true ∧ runToAdd w t ≠ ∅ ∧ ¬ w.addOk) →
        (reconcileTier w i t).cacheAfter = w.cache) ∧
      ((¬ (runToRemove w t = ∅ ∧ runToAdd w t = ∅) ∧ w.removeOk = true ∧
          w.addOk = true) →
        (reconcileTier w i t).cacheAfter = some t) ∧
      (w.memberRoles = none →
        (reconcileTier w i t).cacheAfter = w.cache) := by
  intro w i t hperm hcache
  refine ⟨?_, ?_, ?_, ?_⟩
  · rintro ⟨hrem, hrok⟩
    obtain ⟨roles, hm⟩ := runToRemove_member_of_ne hrem
    rw [reconcileTier_apply w i t roles hperm hcache hm (fun hc => hrem hc.1)]
    rw [if_pos ⟨hrem, hrok⟩]
  · rintro ⟨hrok, hadd, haok⟩
    obtain ⟨roles, hm⟩ := runToAdd_member_of_ne hadd
    rw [reconcileTier_apply w i t roles hperm hcache hm (fun hc => hadd hc.2)]
    rw [if_neg (fun hc => hc.2 hrok)]
    rw [if_pos ⟨hadd, haok⟩]
  · rintro ⟨hne, hrok, haok⟩
    have hm : ∃ roles, w.memberRoles = some roles := by
      by_cases h0 : runToRemove w t = ∅
      · exact runToAdd_member_of_ne (fun hc => hne ⟨h0, hc⟩)
      · exact runToRemove_member_of_ne h0
    obtain ⟨roles, hm⟩ := hm
    rw [reconcileTier_apply w i t roles hperm hcache hm hne]
    rw [if_neg (fun hc => hc.2 hrok)]
    rw [if_neg (fun hc => hc.2 haok)]
  · intro hm
    obtain ⟨perm, cache, mroles, groles, mpos, rok, aok⟩ := w
    dsimp only at hperm hcache hm ⊢
    subst hperm
    subst hm
    unfold reconcileTier
    rw [if_neg (by simp)]
    split
    · rfl
    · rfl

/-- C9 witness: the amended theorem's partial-success clause instantiated
at the concrete world `wC9` (removal succeeds, addition fails): the cache
entry stays what it was, namely absent. -/
theorem C9_cache_updated_only_on_full_success_witness :
    (reconcileTier wC9 "u1" (some 2)).cacheAfter = wC9.cache ∧
    wC9.cache = none :=
  ⟨(C9_cache_updated_only_on_full_success wC9 "u1" (some 2)
      (by decide) (by decide)).2.1 ⟨rfl, by decide, by decide⟩, rfl⟩

/-- C5 counterexample: for the Scenario-A record (identifier "u1", tier
"T2", position "MID"), the code's desired state is a SINGLE tag — the
tier-2 role — not a three-element set: the catalog (`TIER_ROLE_IDS`)
contains only tier roles, and the Desired-State computation reads only
`row.tier`, so no position tag and no baseline tag can ever appear. -/
theorem C5_counterexample :
    parseTier rowA.tier = some 2 ∧
    (desiredRoleSet rowA).card = 1 ∧
    "role-MID" ∉ desiredRoleSet rowA ∧
    "role-PLAYER" ∉ desiredRoleSet rowA := by decide

/-- C5 amended: the Scenario-A record yields desired state exactly the
singleton containing the tier-2 role id; the engine manages only tier
tags — there is no position mapping and no baseline mapping in the
catalog, so no other tag is included. -/
theorem C5_desired_is_single_tier_role :
    desiredRoleSet rowA = {t2id} := by decide

/-- C6 counterexample: for the record with unparseable tier "??",
index.js `applyFromRow` (lines 117-127) logs the anomaly and returns
WITHOUT invoking `reconcileTier`, leaving every existing assignment
untouched — the Differ never gets to remove stale managed tier tags,
refuting the claim's removal behaviour. -/
theorem C6_counterexample :
    parseTier rowBad.tier = none ∧
    (applyFromRow rowBad).warned = true ∧
    (applyFromRow rowBad).reconcileCalledWith = none := by decide

/-- C6 amended: the two variants split the claim's behaviour.  For a
record with unparseable tier, index.js `applyFromRow` logs an anomaly and
skips reconciliation entirely (existing assignments untouched), while the
part_001 variant reconciles with a null tier — logging no anomaly — and
its diff then removes every observed managed tier tag and adds nothing. -/
theorem C6_unparseable_tier_split_behaviour :
    ∀ (row : Row) (obs : Finset String),
      jsStrTruthy row.discord_id = true →
      parseTier row.tier = none →
      applyFromRow row = ⟨true, none⟩ ∧
      applyFromRow_v001 row = some (isValidTier row.tier) ∧
      (reconcileTierDiff none obs).toRemove = obs ∩ ALL_TIER_IDS ∧
      (reconcileTierDiff none obs).toAdd = ∅ := by
  intro row obs htr hpt
  refine ⟨?_, ?_, ?_, rfl⟩
  · unfold applyFromRow
    rw [if_neg (by simp [htr])]
    rw [hpt]
  · unfold applyFromRow_v001
    rw [if_neg (by simp [htr])]
  · rw [reconcileTierDiff_toRemove]
    simp [desiredRoleId]

/-- C6 witness: the amended theorem instantiated at the concrete
unparseable-tier record `rowBad` and an entity holding the T1 role. -/
theorem C6_unparseable_tier_split_behaviour_witness :
    applyFromRow rowBad = ⟨true, none⟩ ∧
    applyFromRow_v001 rowBad = some (isValidTier rowBad.tier) ∧
    (reconcileTierDiff none ({t1id} : Finset String)).toRemove =
      {t1id} ∩ ALL_TIER_IDS ∧
    (reconcileTierDiff none ({t1id} : Finset String)).toAdd = ∅ :=
  C6_unparseable_tier_split_behaviour rowBad {t1id} (by decide) (by decide)

/-- C10: the tier parsers use `parseInt`'s numeric-prefix semantics, so
malformed strings with a valid leading digit are accepted: "1.5" parses
as tier 1 and "2abc" as tier 2 in both `parseTier` (which also trims and
strips a leading T, accepting " t3x ") and `isValidTier` (which does not
strip the T, so "T2" is accepted only by `parseTier`). -/
theorem C10_parseInt_prefix_accepts_trailing_garbage :
    parseTier (some "1.5") = some 1 ∧
    parseTier (some "2abc") = some 2 ∧
    isValidTier (some "1.5") = some 1 ∧
    isValidTier (some "2abc") = some 2 ∧
    parseTier (some " t3x ") = some 3 ∧
    parseTier (some "T2") = some 2 ∧
    isValidTier (some "T2") = none := by decide

/-- C8: `runMissingAuditOnce` posts a report exactly when the unresolved
set's signature differs from the remembered one; in particular a second
invocation over rows with the same signature posts nothing. -/
theorem C8_audit_suppression :
    ∀ (lastKey : String) (rows rows2 : List Row),
      signatureFor rows2 = signatureFor rows →
      (runMissingAuditOnce (runMissingAuditOnce lastKey rows).2 rows2).1 =
        false ∧
      ((runMissingAuditOnce lastKey rows).1 = true ↔
        signatureFor rows ≠ lastKey) := by
  intro lastKey rows rows2 hsig
  have h2 : (runMissingAuditOnce lastKey rows).2 = signatureFor rows := by
    unfold runMissingAuditOnce
    dsimp only
    split
    · rfl
    · next h => exact (not_ne_iff.mp h).symm
  constructor
  · rw [h2]
    unfold runMissingAuditOnce
    dsimp only
    rw [if_neg (by rw [hsig]; exact fun hc => hc rfl)]
  · unfold runMissingAuditOnce
    dsimp only
    by_cases h : signatureFor rows ≠ lastKey
    · rw [if_pos h]
      exact ⟨fun _ => h, fun _ => rfl⟩
    · rw [if_neg h]
      exact ⟨fun hfalse => absurd hfalse (by simp), fun hne => absurd hne h⟩

/-- C8 witness: two invocations over the same concrete one-row unresolved
set; the second posts no report. -/
theorem C8_audit_suppression_witness :
    (runMissingAuditOnce (runMissingAuditOnce "" [rowAudit]).2 [rowAudit]).1 =
      false ∧
    ((runMissingAuditOnce "" [rowAudit]).1 = true ↔
      signatureFor [rowAudit] ≠ "") :=
  C8_audit_suppression "" [rowAudit] [rowAudit] rfl

/-- C7: two debounced schedule calls for the same entity key, the second
within the 500 ms window of the first: the pending timer is cleared and
replaced, and exactly one task is enqueued — at the second call's fire
time, carrying the latest snapshot's tier. -/
theorem C7_debounce_latest_wins :
    ∀ (t1 t2 : Nat) (r1 r2 : Row) (k : String),
      r1.discord_id = some k →
      r2.discord_id = some k →
      k ≠ "" →
      t1 ≤ t2 →
      t2 < t1 + DEBOUNCE_MS →
      runDebounce [(t1, r1), (t2, r2)] =
        [(t2 + DEBOUNCE_MS, k, isValidTier r2.tier)] := by
  intro t1 t2 r1 r2 k h1 h2 hk hle hlt
  have hnle : ¬ (t1 + DEBOUNCE_MS ≤ t2) := by omega
  simp [runDebounce, runDebounceFrom, emptySched, fireDue, flushSched,
    scheduleApplyFromRow, scheduleCall, h1, h2, hk, hnle, hlt, List.filter]

/-- C7 witness: the theorem at concrete events 100 ms apart — rows for
entity "u1" with tiers "T1" then "2" — yielding the single task at
t = 600 with the latest tier. -/
theorem C7_debounce_latest_wins_witness :
    runDebounce [(0, rowE1), (100, rowE2)] =
      [(100 + DEBOUNCE_MS, "u1", isValidTier rowE2.tier)] :=
  C7_debounce_latest_wins 0 100 rowE1 rowE2 "u1" rfl rfl
    (by decide) (by decide) (by decide)
